import Mathlib

/-
Verification of the real-time chat broker of sametuca/ts-socket.

The server (src/shared/types.ts, the concatenated server portion) keeps three
pieces of mutable state:
  const users = new Map<string, User>()          -- keyed by socket.id
  const messages: Message[] = []                 -- append-only log
  const rooms = new Map<string, Room>()          -- keyed by room id, seeded
                                                 -- with the "general" room
plus a per-connection `socket.data.user` field set on a successful join and
never cleared.  Every handler is embedded below as a pure function from an
explicit clock value (the Date.now() of the handler) and the current state to a
result, the successor state, and the ordered list of socket emissions it
performs.  JS Maps are modelled as association lists with JS Map semantics
(set overwrites in place, delete removes the entry, values() is insertion
order); Date.now() is an explicit Nat parameter; message and room ids are the
strings the code builds from it.
-/

namespace TsSocket

/-- Message kind, the type field of a message: text or system. -/
inductive MsgType where
  | text
  | system
deriving DecidableEq, Repr

/-- The User record from src/shared/types.ts (joinedAt modelled as a Nat clock value). -/
structure User where
  id : String
  username : String
  joinedAt : Nat
deriving DecidableEq, Repr

/-- The Message record from src/shared/types.ts. -/
structure Message where
  id : String
  userId : String
  username : String
  content : String
  timestamp : Nat
  type : MsgType
deriving DecidableEq, Repr

/-- The Room record from src/shared/types.ts. -/
structure Room where
  id : String
  name : String
  users : List User
  createdAt : Nat
deriving DecidableEq, Repr

/-- JS `Map.prototype.get`: the value stored at key `k`, if any. -/
def mapGet (k : String) : List (String × α) → Option α
  | [] => none
  | (k', v) :: rest => if k' = k then some v else mapGet k rest

/-- JS `Map.prototype.set`: overwrite in place if the key is present, else append. -/
def mapSet (k : String) (v : α) : List (String × α) → List (String × α)
  | [] => [(k, v)]
  | (k', v') :: rest => if k' = k then (k, v) :: rest else (k', v') :: mapSet k v rest

/-- JS `Map.prototype.delete`: remove the entry at key `k` if present. -/
def mapDelete (k : String) : List (String × α) → List (String × α)
  | [] => []
  | (k', v) :: rest => if k' = k then rest else (k', v) :: mapDelete k rest

/-- JS `String.prototype.toLowerCase` (ASCII case fold, as used on usernames). -/
def toLowerCase (s : String) : String := ⟨s.data.map Char.toLower⟩

/-- JS `String.prototype.trim`: strip leading and trailing whitespace. -/
def jsTrim (s : String) : String :=
  ⟨((s.data.dropWhile Char.isWhitespace).reverse.dropWhile Char.isWhitespace).reverse⟩

/-- JS `arr.slice(start)` with a single, possibly negative, start index. -/
def jsSlice (start : Int) (xs : List α) : List α :=
  if start < 0 then xs.drop (xs.length - (-start).toNat)
  else xs.drop start.toNat

/-- The whole mutable server state: the `users` map, the `messages` log, the
`rooms` map, and the per-connection `socket.data.user` fields. -/
structure ServerState where
  users : List (String × User)
  messages : List Message
  rooms : List (String × Room)
  socketData : List (String × User)
deriving DecidableEq, Repr

/-- Startup state: empty registry and log, and the seeded "general" room. -/
def initialState (startTime : Nat) : ServerState :=
  { users := []
    messages := []
    rooms := [("general", ⟨"general", "General", [], startTime⟩)]
    socketData := [] }

/-- Destination of one socket emission: `socket.emit` (only the connection),
`socket.broadcast.emit` (everyone but the connection), or `io.emit` (everyone). -/
inductive Target where
  | only (cid : String)
  | others (cid : String)
  | all
deriving DecidableEq, Repr

/-- The server-to-client events the embedded handlers emit. -/
inductive Event where
  | userJoined (u : User)
  | userLeft (u : User)
  | usersList (us : List User)
  | messageHistory (ms : List Message)
  | messageNew (m : Message)
  | roomCreated (r : Room)
  | errorEvent (s : String)
deriving DecidableEq, Repr

/-- One emission performed by a handler, in program order. -/
structure Emission where
  target : Target
  event : Event
deriving DecidableEq, Repr

/-- Whether connection `cid` is among the recipients of an emission. -/
def deliveredTo (cid : String) (e : Emission) : Bool :=
  match e.target with
  | .only c => c == cid
  | .others c => c != cid
  | .all => true

/-- Outcome reported through the `user:join` acknowledgement callback. -/
inductive JoinRes where
  | ok
  | err (msg : String)
deriving DecidableEq, Repr

/-- The `user:join` handler.  Rejects an empty trimmed username; rejects a
case-insensitive collision of the raw requested name with a registered
username; otherwise registers the user (trimmed name), sets
`socket.data.user`, pushes the user into the "general" room, and emits, in
order: `user:joined` to the others, `users:list` and `message:history`
(last 50 messages, before the append) to the requester, and `message:new`
with the "joined the chat" system message to everyone. -/
def userJoin (cid username : String) (now : Nat) (st : ServerState) :
    JoinRes × ServerState × List Emission :=
  if (jsTrim username).length = 0 then
    (.err "Username cannot be empty", st, [])
  else
    match (st.users.map Prod.snd).find?
        (fun u => toLowerCase u.username == toLowerCase username) with
    | some _ => (.err "Username already taken", st, [])
    | none =>
      let user : User := ⟨cid, jsTrim username, now⟩
      let users1 := mapSet cid user st.users
      let data1 := mapSet cid user st.socketData
      match mapGet "general" st.rooms with
      | none =>
        -- the non-null assertion on rooms.get would throw here and the
        -- try/catch would answer Internal server error, after users.set ran
        (.err "Internal server error",
          { st with users := users1, socketData := data1 }, [])
      | some general =>
        let rooms1 :=
          mapSet "general" { general with users := general.users ++ [user] } st.rooms
        let sysMsg : Message :=
          ⟨toString now, "system", "System", username ++ " joined the chat", now, .system⟩
        (.ok,
          { users := users1, socketData := data1, rooms := rooms1,
            messages := st.messages ++ [sysMsg] },
          [⟨.others cid, .userJoined user⟩,
           ⟨.only cid, .usersList (users1.map Prod.snd)⟩,
           ⟨.only cid, .messageHistory (jsSlice (-50) st.messages)⟩,
           ⟨.all, .messageNew sysMsg⟩])

/-- The `message:send` handler.  Requires `socket.data.user` (else fails and
unicasts an error), rejects whitespace-only content silently, otherwise
appends a text message with the trimmed content and the identity of the sender
and broadcasts it to everyone. -/
def messageSend (cid content : String) (now : Nat) (st : ServerState) :
    Bool × ServerState × List Emission :=
  match mapGet cid st.socketData with
  | none => (false, st, [⟨.only cid, .errorEvent "You must join first"⟩])
  | some user =>
    if (jsTrim content).length = 0 then (false, st, [])
    else
      let msg : Message := ⟨toString now, user.id, user.username, jsTrim content, now, .text⟩
      (true, { st with messages := st.messages ++ [msg] }, [⟨.all, .messageNew msg⟩])

/-- The `message:getHistory` handler: `messages.slice(-limit)` unicast to the
requester, with `limit = 50` when the caller omits it.  Read-only. -/
def getHistory (cid : String) (limit : Option Int) (st : ServerState) : List Emission :=
  let l := limit.getD 50
  [⟨.only cid, .messageHistory (jsSlice (-l) st.messages)⟩]

/-- The `room:create` handler.  Requires `socket.data.user`; builds a room
with id `room-` ++ Date.now(), the trimmed name, no members, and the current
timestamp; stores it with `rooms.set` and broadcasts `room:created`. -/
def roomCreate (cid name : String) (now : Nat) (st : ServerState) :
    Option Room × ServerState × List Emission :=
  match mapGet cid st.socketData with
  | none => (none, st, [])
  | some _ =>
    let roomId := "room-" ++ toString now
    let room : Room := ⟨roomId, jsTrim name, [], now⟩
    (some room, { st with rooms := mapSet roomId room st.rooms },
      [⟨.all, .roomCreated room⟩])

/-- The `rooms.forEach` loop of the `disconnect` handler: filter the
disconnected id out of the member list of every room. -/
def removeFromRooms (cid : String) (rooms : List (String × Room)) : List (String × Room) :=
  rooms.map (fun kr => (kr.1, { kr.2 with users := kr.2.users.filter (fun u => u.id != cid) }))

/-- The `disconnect` handler.  If `socket.data.user` is unset, nothing happens.
Otherwise: delete the user from the registry, filter its id out of every
member list of every room, broadcast `user:left` to the others, and append and
broadcast a "left the chat" system message.  `socket.data.user` itself is
never cleared. -/
def disconnect (cid : String) (now : Nat) (st : ServerState) :
    ServerState × List Emission :=
  match mapGet cid st.socketData with
  | none => (st, [])
  | some user =>
    let sysMsg : Message :=
      ⟨toString now, "system", "System", user.username ++ " left the chat", now, .system⟩
    ({ users := mapDelete cid st.users
       messages := st.messages ++ [sysMsg]
       rooms := removeFromRooms cid st.rooms
       socketData := st.socketData },
      [⟨.others cid, .userLeft user⟩, ⟨.all, .messageNew sysMsg⟩])

/-- State after `join("c1", "alice")` at clock 1, from startup at clock 0. -/
def joinedState : ServerState := (userJoin "c1" "alice" 1 (initialState 0)).2.1

/-- State after a second connection joins as `" alice"` at clock 2. -/
def twoAliceState : ServerState := (userJoin "c2" " alice" 2 joinedState).2.1

/-- State after `join("c1", "alice")` and a send, both at clock 1000. -/
def sameTickState : ServerState :=
  (messageSend "c1" "hi" 1000 (userJoin "c1" "alice" 1000 (initialState 0)).2.1).2.1

/-- State after the joined `"c1"` creates a room named `"alpha"` at clock 500. -/
def oneRoomState : ServerState := (roomCreate "c1" "alpha" 500 joinedState).2.1

/-- State after `"c1"` joins at clock 1 and disconnects at clock 2. -/
def leftState : ServerState := (disconnect "c1" 2 joinedState).1

/-! ### Map and list lemmas -/

theorem mapGet_mapSet_self (k : String) (v : α) (l : List (String × α)) :
    mapGet k (mapSet k v l) = some v := by
  induction l with
  | nil => simp [mapSet, mapGet]
  | cons kv rest ih =>
    obtain ⟨k', v'⟩ := kv
    by_cases h : k' = k
    · simp [mapSet, mapGet, h]
    · simp [mapSet, mapGet, h, ih]

theorem mapGet_eq_none_of_not_mem (k : String) (l : List (String × α))
    (h : k ∉ l.map Prod.fst) : mapGet k l = none := by
  induction l with
  | nil => rfl
  | cons kv rest ih =>
    obtain ⟨k', v'⟩ := kv
    simp only [List.map_cons, List.mem_cons] at h
    push_neg at h
    have hne : ¬ k' = k := fun hh => h.1 hh.symm
    simp [mapGet, hne, ih h.2]

theorem mapDelete_eq_self_of_not_mem (k : String) (l : List (String × α))
    (h : k ∉ l.map Prod.fst) : mapDelete k l = l := by
  induction l with
  | nil => rfl
  | cons kv rest ih =>
    obtain ⟨k', v'⟩ := kv
    simp only [List.map_cons, List.mem_cons] at h
    push_neg at h
    have hne : ¬ k' = k := fun hh => h.1 hh.symm
    simp [mapDelete, hne, ih h.2]

theorem not_mem_keys_mapDelete (k : String) (l : List (String × α))
    (hnd : (l.map Prod.fst).Nodup) : k ∉ (mapDelete k l).map Prod.fst := by
  induction l with
  | nil => simp [mapDelete]
  | cons kv rest ih =>
    obtain ⟨k', v'⟩ := kv
    simp only [List.map_cons, List.nodup_cons] at hnd
    by_cases h : k' = k
    · subst h
      simp only [mapDelete, if_pos rfl]
      intro hmem
      exact hnd.1 hmem
    · simp only [mapDelete, if_neg h, List.map_cons, List.mem_cons]
      push_neg
      exact ⟨fun hh => h hh.symm, ih hnd.2⟩

theorem mapDelete_idem (k : String) (l : List (String × α))
    (hnd : (l.map Prod.fst).Nodup) : mapDelete k (mapDelete k l) = mapDelete k l :=
  mapDelete_eq_self_of_not_mem k (mapDelete k l) (not_mem_keys_mapDelete k l hnd)

theorem filter_idem (p : α → Bool) (l : List α) :
    (l.filter p).filter p = l.filter p := by
  induction l with
  | nil => rfl
  | cons a rest ih =>
    by_cases h : p a
    · simp [List.filter_cons, h, ih]
    · simp [List.filter_cons, h, ih]

theorem removeFromRooms_idem (cid : String) (rooms : List (String × Room)) :
    removeFromRooms cid (removeFromRooms cid rooms) = removeFromRooms cid rooms := by
  induction rooms with
  | nil => rfl
  | cons kr rest ih =>
    simp only [removeFromRooms, List.map_cons] at ih ⊢
    rw [filter_idem]
    exact congrArg _ ih

/-- Claim C1 (code bug): evaluating the join handler at the failing input.
`join("c1", "alice")` then `join("c2", " alice")`: the collision check
compares the raw requested name, but the stored name is trimmed, so the
second join succeeds and two simultaneously-registered participants end up
with case-insensitively equal usernames, violating the uniqueness invariant. -/
theorem c1_trim_mismatch_breaks_uniqueness :
    (userJoin "c2" " alice" 2 joinedState).1 = JoinRes.ok ∧
    twoAliceState.users.map (fun kv => kv.2.username) = ["alice", "alice"] := by
  exact ⟨rfl, rfl⟩

/-- Claim C2 (code bug): message ids are `Date.now().toString()`, so a join
and a send in the same millisecond (clock 1000) append two messages with the
same id: ids are neither strictly increasing nor pairwise unique. -/
theorem c2_same_tick_duplicate_message_ids :
    sameTickState.messages.map Message.id = ["1000", "1000"] ∧
    ¬ (sameTickState.messages.map Message.id).Nodup := by
  refine ⟨rfl, ?_⟩
  decide

/-- Claim C3 counterexample: connection "c1" is already Joined as "alice",
yet a further join request on the same connection (username "bob") succeeds
instead of failing with AlreadyJoined. -/
theorem c3_counterexample_second_join_succeeds :
    mapGet "c1" joinedState.users = some ⟨"c1", "alice", 1⟩ ∧
    (userJoin "c1" "bob" 2 joinedState).1 = JoinRes.ok := by
  exact ⟨rfl, rfl⟩

/-- Claim C3 amended: the join handler never inspects the join state of the
connection, so a join request on an already-Joined connection is not rejected with
AlreadyJoined: whenever the trimmed requested name is nonempty and no
registered username case-insensitively equals the raw requested name, the
join succeeds and overwrites the registry entry of the connection. -/
theorem c3_amended_rejoin_overwrites (cid uname : String) (now : Nat)
    (st : ServerState) (u0 : User) (g : Room)
    (_hjoined : mapGet cid st.users = some u0)
    (hne : (jsTrim uname).length ≠ 0)
    (hcol : ∀ u ∈ st.users.map Prod.snd, toLowerCase u.username ≠ toLowerCase uname)
    (hgen : mapGet "general" st.rooms = some g) :
    (userJoin cid uname now st).1 = JoinRes.ok ∧
    mapGet cid (userJoin cid uname now st).2.1.users = some ⟨cid, jsTrim uname, now⟩ := by
  have hfind : (st.users.map Prod.snd).find?
      (fun u => toLowerCase u.username == toLowerCase uname) = none := by
    rw [List.find?_eq_none]
    intro u hu
    simpa using hcol u hu
  constructor
  · simp [userJoin, hne, hfind, hgen]
  · simp [userJoin, hne, hfind, hgen, mapGet_mapSet_self]

/-- Witness for c3_amended_rejoin_overwrites at a concrete joined state. -/
theorem c3_amended_rejoin_overwrites_witness :
    mapGet "c1" joinedState.users = some ⟨"c1", "alice", 1⟩ ∧
    (jsTrim "bob").length ≠ 0 ∧
    ((userJoin "c1" "bob" 5 joinedState).1 = JoinRes.ok ∧
     mapGet "c1" (userJoin "c1" "bob" 5 joinedState).2.1.users = some ⟨"c1", "bob", 5⟩) :=
  ⟨by decide, by decide,
    c3_amended_rejoin_overwrites "c1" "bob" 5 joinedState ⟨"c1", "alice", 1⟩
      ⟨"general", "General", [⟨"c1", "alice", 1⟩], 0⟩
      (by decide) (by decide) (by decide) (by decide)⟩

/-- Claim C4 counterexample: with an explicit limit of 0 and a log of length
1, `messages.slice(-limit)` is `slice(0)`, the whole log, so getHistory
returns 1 message where the claim demands min(0, 1) = 0. -/
theorem c4_counterexample_limit_zero :
    joinedState.messages.length = 1 ∧
    getHistory "c9" (some 0) joinedState =
      [⟨Target.only "c9", Event.messageHistory
          [⟨"1", "system", "System", "alice joined the chat", 1, MsgType.system⟩]⟩] := by
  exact ⟨rfl, rfl⟩

/-- Claim C4 amended: for every limit n ≥ 1 getHistory returns exactly the
last min(n, len) messages of the log in append order, oldest first (the
entire log when n exceeds len), and an omitted limit defaults to 50; a limit
of 0, however, returns the entire log rather than no messages. -/
theorem c4_amended_tail (cid : String) (n : Int) (st : ServerState) (h : 1 ≤ n) :
    getHistory cid (some n) st =
      [⟨Target.only cid, Event.messageHistory
          (st.messages.drop (st.messages.length - min n.toNat st.messages.length))⟩] ∧
    getHistory cid none st = getHistory cid (some 50) st := by
  constructor
  · have h1 : -n < 0 := by omega
    have h3 : st.messages.length - min n.toNat st.messages.length
        = st.messages.length - n.toNat := by omega
    simp [getHistory, jsSlice, h1, h3]
  · rfl

/-- Witness for c4_amended_tail: limit 1 on the two-message log returns
exactly the last message, and the omitted limit behaves like 50. -/
theorem c4_amended_tail_witness :
    (1 : Int) ≤ 1 ∧
    (getHistory "c9" (some 1) sameTickState =
      [⟨Target.only "c9", Event.messageHistory
          (sameTickState.messages.drop
            (sameTickState.messages.length -
              min (1 : Int).toNat sameTickState.messages.length))⟩] ∧
     getHistory "c9" none sameTickState = getHistory "c9" (some 50) sameTickState) :=
  ⟨by decide, c4_amended_tail "c9" 1 sameTickState (by decide)⟩

/-- Claim C5: a send whose content is whitespace-only, from a joined
connection, fails, leaves the whole broker state unchanged, and emits
nothing. -/
theorem c5_whitespace_send_is_silent_noop (cid content : String) (now : Nat)
    (st : ServerState) (u : User)
    (hj : mapGet cid st.socketData = some u)
    (hw : jsTrim content = "") :
    messageSend cid content now st = (false, st, []) := by
  have hlen : (jsTrim content).length = 0 := by rw [hw]; rfl
  simp [messageSend, hj, hlen]

/-- Witness for c5_whitespace_send_is_silent_noop: `send("   ")` from the
joined connection "c1". -/
theorem c5_whitespace_send_is_silent_noop_witness :
    mapGet "c1" joinedState.socketData = some ⟨"c1", "alice", 1⟩ ∧
    jsTrim "   " = "" ∧
    messageSend "c1" "   " 9 joinedState = (false, joinedState, []) :=
  ⟨by decide, by decide,
    c5_whitespace_send_is_silent_noop "c1" "   " 9 joinedState ⟨"c1", "alice", 1⟩
      (by decide) (by decide)⟩

/-- Claim C6 counterexample: "c1" joins and then disconnects twice.  Because
the handler never clears `socket.data.user`, the second disconnect repeats
the side effects: it performs 2 further emissions (`user:left` and the
system `message:new`) and appends a third message to the log, where the
claim demands a no-op. -/
theorem c6_counterexample_second_disconnect_repeats :
    (disconnect "c1" 3 leftState).2.length = 2 ∧
    (disconnect "c1" 3 leftState).1.messages.length = leftState.messages.length + 1 := by
  exact ⟨rfl, rfl⟩

/-- Claim C6 amended: disconnect of a connection that was never Joined is a
no-op; but disconnect is not idempotent: since `socket.data.user` is never
cleared, a second disconnect call on a Joined connection leaves the registry
and the rooms unchanged yet re-broadcasts `user:left`, and appends and
broadcasts a second "left the chat" system message. -/
theorem c6_amended_disconnect_not_idempotent (cid : String) (t1 t2 : Nat)
    (st : ServerState) (u : User)
    (hnd : (st.users.map Prod.fst).Nodup) :
    (mapGet cid st.socketData = none → disconnect cid t1 st = (st, [])) ∧
    (mapGet cid st.socketData = some u →
      ((disconnect cid t2 (disconnect cid t1 st).1).1.users
          = (disconnect cid t1 st).1.users ∧
       (disconnect cid t2 (disconnect cid t1 st).1).1.rooms
          = (disconnect cid t1 st).1.rooms ∧
       (disconnect cid t2 (disconnect cid t1 st).1).1.messages
          = (disconnect cid t1 st).1.messages ++
              [⟨toString t2, "system", "System",
                u.username ++ " left the chat", t2, MsgType.system⟩] ∧
       (disconnect cid t2 (disconnect cid t1 st).1).2 =
          [⟨Target.others cid, Event.userLeft u⟩,
           ⟨Target.all, Event.messageNew
              ⟨toString t2, "system", "System",
                u.username ++ " left the chat", t2, MsgType.system⟩⟩])) := by
  constructor
  · intro h
    simp [disconnect, h]
  · intro h
    refine ⟨?_, ?_, ?_, ?_⟩ <;> simp [disconnect, h]
    · exact mapDelete_idem cid st.users hnd
    · exact removeFromRooms_idem cid st.rooms

/-- Witness for c6_amended_disconnect_not_idempotent: double disconnect of
the joined connection "c1". -/
theorem c6_amended_disconnect_not_idempotent_witness :
    (joinedState.users.map Prod.fst).Nodup ∧
    ((disconnect "c1" 3 (disconnect "c1" 2 joinedState).1).1.users
        = (disconnect "c1" 2 joinedState).1.users ∧
     (disconnect "c1" 3 (disconnect "c1" 2 joinedState).1).1.rooms
        = (disconnect "c1" 2 joinedState).1.rooms ∧
     (disconnect "c1" 3 (disconnect "c1" 2 joinedState).1).1.messages
        = (disconnect "c1" 2 joinedState).1.messages ++
            [⟨"3", "system", "System", "alice left the chat", 3, MsgType.system⟩] ∧
     (disconnect "c1" 3 (disconnect "c1" 2 joinedState).1).2 =
        [⟨Target.others "c1", Event.userLeft ⟨"c1", "alice", 1⟩⟩,
         ⟨Target.all, Event.messageNew
            ⟨"3", "system", "System", "alice left the chat", 3, MsgType.system⟩⟩]) :=
  ⟨by decide,
    (c6_amended_disconnect_not_idempotent "c1" 2 3 joinedState ⟨"c1", "alice", 1⟩
      (by decide)).2 (by decide)⟩

/-- Claim C7: after disconnect of a Joined connection, its connectionId
appears in the member list of zero rooms. -/
theorem c7_disconnect_clears_all_memberships (cid : String) (now : Nat)
    (st : ServerState) (u : User)
    (hj : mapGet cid st.socketData = some u) :
    ∀ kr ∈ (disconnect cid now st).1.rooms, ∀ m ∈ kr.2.users, m.id ≠ cid := by
  intro kr hkr m hm
  simp only [disconnect, hj] at hkr
  simp only [removeFromRooms, List.mem_map] at hkr
  obtain ⟨orig, _, rfl⟩ := hkr
  have hf := (List.mem_filter.mp hm).2
  simpa using hf

/-- Witness for c7_disconnect_clears_all_memberships: disconnecting "c1"
leaves every room (here "general") without any member of id "c1". -/
theorem c7_disconnect_clears_all_memberships_witness :
    mapGet "c1" joinedState.socketData = some ⟨"c1", "alice", 1⟩ ∧
    (disconnect "c1" 2 joinedState).1.rooms.all
      (fun kr => kr.2.users.all (fun m => m.id != "c1")) = true := by
  refine ⟨by decide, ?_⟩
  have h := c7_disconnect_clears_all_memberships "c1" 2 joinedState
    ⟨"c1", "alice", 1⟩ (by decide)
  rw [List.all_eq_true]
  intro kr hkr
  rw [List.all_eq_true]
  intro m hm
  exact bne_iff_ne.mpr (h kr hkr m hm)

/-- Claim C8 (code bug): evaluating room:create at the failing input.  Room
ids are `room-` ++ Date.now(), so two creates in the same millisecond
(clock 500) return the same id "room-500", and the second `rooms.set`
overwrites the first room ("alpha" is gone from the directory). -/
theorem c8_same_tick_room_id_collision :
    (roomCreate "c1" "alpha" 500 joinedState).1
        = some ⟨"room-500", "alpha", [], 500⟩ ∧
    (roomCreate "c1" "beta" 500 oneRoomState).1
        = some ⟨"room-500", "beta", [], 500⟩ ∧
    (roomCreate "c1" "beta" 500 oneRoomState).2.1.rooms =
      [("general", ⟨"general", "General", [⟨"c1", "alice", 1⟩], 0⟩),
       ("room-500", ⟨"room-500", "beta", [], 500⟩)] := by
  exact ⟨rfl, rfl, rfl⟩

/-- Claim C9: on a successful join, among the emissions the requester
receives, the users:list snapshot unicast comes first, the message:history
unicast second, and the join-confirmation message:new broadcast (the only
emission addressed to the whole room) last — the requester gets snapshot
and history before its own join broadcast. -/
theorem c9_join_unicasts_precede_join_broadcast (cid uname : String) (now : Nat)
    (st : ServerState) (g : Room)
    (hne : (jsTrim uname).length ≠ 0)
    (hcol : ∀ u ∈ st.users.map Prod.snd, toLowerCase u.username ≠ toLowerCase uname)
    (hgen : mapGet "general" st.rooms = some g) :
    (userJoin cid uname now st).1 = JoinRes.ok ∧
    ((userJoin cid uname now st).2.2.filter (deliveredTo cid)) =
      [⟨Target.only cid, Event.usersList
          ((mapSet cid ⟨cid, jsTrim uname, now⟩ st.users).map Prod.snd)⟩,
       ⟨Target.only cid, Event.messageHistory (jsSlice (-50) st.messages)⟩,
       ⟨Target.all, Event.messageNew
          ⟨toString now, "system", "System",
            uname ++ " joined the chat", now, MsgType.system⟩⟩] := by
  have hfind : (st.users.map Prod.snd).find?
      (fun u => toLowerCase u.username == toLowerCase uname) = none := by
    rw [List.find?_eq_none]
    intro u hu
    simpa using hcol u hu
  constructor
  · simp [userJoin, hne, hfind, hgen]
  · simp [userJoin, hne, hfind, hgen, deliveredTo, List.filter_cons]

/-- Witness for c9_join_unicasts_precede_join_broadcast: "c7" joins as "zoe"
from the startup state. -/
theorem c9_join_unicasts_precede_join_broadcast_witness :
    (jsTrim "zoe").length ≠ 0 ∧
    mapGet "general" (initialState 0).rooms = some ⟨"general", "General", [], 0⟩ ∧
    ((userJoin "c7" "zoe" 5 (initialState 0)).1 = JoinRes.ok ∧
     ((userJoin "c7" "zoe" 5 (initialState 0)).2.2.filter (deliveredTo "c7")) =
      [⟨Target.only "c7", Event.usersList
          ((mapSet "c7" ⟨"c7", jsTrim "zoe", 5⟩ (initialState 0).users).map Prod.snd)⟩,
       ⟨Target.only "c7", Event.messageHistory (jsSlice (-50) (initialState 0).messages)⟩,
       ⟨Target.all, Event.messageNew
          ⟨toString 5, "system", "System",
            "zoe joined the chat", 5, MsgType.system⟩⟩]) :=
  ⟨by decide, by decide,
    c9_join_unicasts_precede_join_broadcast "c7" "zoe" 5 (initialState 0)
      ⟨"general", "General", [], 0⟩ (by decide) (by decide) (by decide)⟩

/-- Claim C10: a successful send appends and broadcasts exactly one message
whose content is the whitespace-trimmed input, stamped with the sender id
and username and of kind text. -/
theorem c10_send_appends_trimmed_stamped_message (cid content : String) (now : Nat)
    (st : ServerState) (u : User)
    (hj : mapGet cid st.socketData = some u)
    (hne : (jsTrim content).length ≠ 0) :
    messageSend cid content now st =
      (true,
       { st with messages := st.messages ++
           [⟨toString now, u.id, u.username, jsTrim content, now, MsgType.text⟩] },
       [⟨Target.all, Event.messageNew
           ⟨toString now, u.id, u.username, jsTrim content, now, MsgType.text⟩⟩]) := by
  simp [messageSend, hj, hne]

/-- Witness for c10_send_appends_trimmed_stamped_message: "c1" (joined as
"alice") sends "  hi there  ", which is logged and broadcast as "hi there". -/
theorem c10_send_appends_trimmed_stamped_message_witness :
    mapGet "c1" joinedState.socketData = some ⟨"c1", "alice", 1⟩ ∧
    (jsTrim "  hi there  ").length ≠ 0 ∧
    messageSend "c1" "  hi there  " 9 joinedState =
      (true,
       { joinedState with messages := joinedState.messages ++
           [⟨"9", "c1", "alice", "hi there", 9, MsgType.text⟩] },
       [⟨Target.all, Event.messageNew
           ⟨"9", "c1", "alice", "hi there", 9, MsgType.text⟩⟩]) :=
  ⟨by decide, by decide,
    c10_send_appends_trimmed_stamped_message "c1" "  hi there  " 9 joinedState
      ⟨"c1", "alice", 1⟩ (by decide) (by decide)⟩

end TsSocket
